import Mathlib

/-!
Verification of `libs/libmythbase/dbutil.cpp` (DBUtil) against its
natural-language specification.

The C++ source is shallowly embedded: stateless member functions become
pure Lean functions, the mutable version-probe state becomes an explicit
state record with a step function, and the backup orchestration becomes a
pure function of an environment record that also returns a trace of the
externally visible events (timestamps saved, credential files staged and
unlinked, external processes run).
-/

/-! ## TableAuditor: CheckRepairStatus (DBUtil::CheckRepairStatus) -/

/-- One row of a CHECK TABLE / REPAIR TABLE result set: columns
Table, Msg_type, Msg_text. -/
structure ResultRow where
  table : String
  msgType : String
  msgText : String
deriving DecidableEq

/-- QString::toLower restricted to ASCII data (all strings compared by the
source are ASCII). -/
def asciiLower (s : String) : String := ⟨s.data.map Char.toLower⟩

/-- The verdict update of one loop iteration of `DBUtil::CheckRepairStatus`
(the if/else-if chain on `type`/`text` at the bottom of the loop body). -/
def verdictStep (ok : Bool) (r : ResultRow) : Bool :=
  if asciiLower r.msgType = "status" ∧ asciiLower r.msgText = "ok" then
    true
  else if asciiLower r.msgType = "error" ∨
          (asciiLower r.msgType = "status" ∧ asciiLower r.msgText ≠ "ok") then
    false
  else
    ok

/-- Loop state of `DBUtil::CheckRepairStatus`: the accumulated bad-table
list, `previous_table`, the current `table` variable and the `ok` flag. -/
structure CRState where
  tables : List String
  previousTable : String
  table : String
  ok : Bool
deriving DecidableEq

/-- One iteration of the `while (query.next())` loop of
`DBUtil::CheckRepairStatus`. -/
def crStep (s : CRState) (r : ResultRow) : CRState :=
  let s1 : CRState :=
    if r.table ≠ s.previousTable then
      if ¬s.ok then
        ⟨s.tables ++ [s.previousTable], r.table, r.table, true⟩
      else
        ⟨s.tables, r.table, r.table, s.ok⟩
    else
      ⟨s.tables, s.previousTable, r.table, s.ok⟩
  ⟨s1.tables, s1.previousTable, s1.table, verdictStep s1.ok r⟩

/-- `DBUtil::CheckRepairStatus`: fold the loop body over the result rows
starting from empty strings (null QStrings) and `ok = true`, then finalize
the last table. -/
def checkRepairStatus (rows : List ResultRow) : List String :=
  let s := rows.foldl crStep ⟨[], "", "", true⟩
  if ¬s.ok then s.tables ++ [s.table] else s.tables

/-- A row is applicable to the verdict iff its type is "status" or "error"
(case-insensitive); other types fall through the if/else-if chain. -/
def rowApplicable (r : ResultRow) : Bool :=
  asciiLower r.msgType = "status" ∨ asciiLower r.msgType = "error"

/-- A row marks the table not-OK: type "error", or type "status" with a
text other than "OK" (case-insensitive). -/
def rowBad (r : ResultRow) : Bool :=
  asciiLower r.msgType = "error" ∨
    (asciiLower r.msgType = "status" ∧ asciiLower r.msgText ≠ "ok")

/-- A table group is bad iff its last applicable row marks it not-OK;
a group with no applicable rows is OK. -/
def groupBad (rows : List ResultRow) : Bool :=
  match (rows.filter rowApplicable).getLast? with
  | none => false
  | some r => rowBad r

/-- The table names of the groups whose last applicable row leaves them
not-OK, in group order. -/
def badNames (gs : List (String × List ResultRow)) : List String :=
  (gs.filter (fun g => groupBad g.2)).map Prod.fst

theorem verdictStep_not_applicable (b : Bool) (r : ResultRow)
    (h : rowApplicable r = false) : verdictStep b r = b := by
  unfold rowApplicable at h
  unfold verdictStep
  simp only [decide_eq_false_iff_not] at h
  push_neg at h
  rw [if_neg, if_neg]
  · rintro (h1 | h1)
    · exact h.2 h1
    · exact h.1 h1.1
  · rintro ⟨h1, _⟩
    exact h.1 h1

theorem verdictStep_applicable (b : Bool) (r : ResultRow)
    (h : rowApplicable r = true) : verdictStep b r = !(rowBad r) := by
  unfold rowApplicable at h
  unfold verdictStep rowBad
  by_cases h1 : asciiLower r.msgType = "status" ∧ asciiLower r.msgText = "ok"
  · rw [if_pos h1]
    simp [h1.1, h1.2]
  · rw [if_neg h1]
    simp only [decide_eq_true_eq] at h
    rcases h with h | h
    · have h2 : asciiLower r.msgText ≠ "ok" := fun hx => h1 ⟨h, hx⟩
      rw [if_pos (Or.inr ⟨h, h2⟩)]
      simp [h, h2]
    · rw [if_pos (Or.inl h)]
      simp [h]

/-- The verdict fold over any row list is determined by the last applicable
row (or keeps the initial verdict when no row is applicable). -/
theorem foldl_verdictStep_eq (rows : List ResultRow) (b : Bool) :
    rows.foldl verdictStep b =
      match (rows.filter rowApplicable).getLast? with
      | none => b
      | some r => !(rowBad r) := by
  induction rows generalizing b with
  | nil => rfl
  | cons r rs ih =>
    rw [List.foldl_cons, ih]
    by_cases h : rowApplicable r = true
    · rw [List.filter_cons_of_pos h]
      rcases h4 : rs.filter rowApplicable with _ | ⟨y, ys⟩
      · simp [verdictStep_applicable b r h]
      · rw [List.getLast?_cons_cons]
        cases h5 : (y :: ys).getLast? with
        | none =>
          exact absurd (List.getLast?_eq_none_iff.mp h5) (List.cons_ne_nil y ys)
        | some z => rfl
    · have h' : rowApplicable r = false := by
        cases h5 : rowApplicable r
        · rfl
        · exact absurd h5 h
      rw [List.filter_cons_of_neg (by simp [h']),
          verdictStep_not_applicable b r h']

/-- The finalization after the row loop of `DBUtil::CheckRepairStatus`:
append the last table when it is still not-OK. -/
def finalizeCR (s : CRState) : List String :=
  if ¬s.ok then s.tables ++ [s.table] else s.tables

theorem checkRepairStatus_eq_finalize (rows : List ResultRow) :
    checkRepairStatus rows = finalizeCR (rows.foldl crStep ⟨[], "", "", true⟩) :=
  rfl

/-- The rows of a list of contiguous table groups, in order. -/
def groupRows (gs : List (String × List ResultRow)) : List ResultRow :=
  (gs.map Prod.snd).flatten

theorem groupBad_eq_not_foldl (rows : List ResultRow) :
    groupBad rows = !(rows.foldl verdictStep true) := by
  rw [foldl_verdictStep_eq]
  unfold groupBad
  cases (rows.filter rowApplicable).getLast? <;> simp

/-- Folding the loop body over rows that all belong to the current table
only updates the running verdict. -/
theorem foldl_crStep_stay (rows : List ResultRow) :
    ∀ (acc : List String) (p : String) (b : Bool),
      (∀ r ∈ rows, r.table = p) →
      rows.foldl crStep ⟨acc, p, p, b⟩ = ⟨acc, p, p, rows.foldl verdictStep b⟩ := by
  induction rows with
  | nil => intro acc p b _; rfl
  | cons r rs ih =>
    intro acc p b hn
    have hr : r.table = p := hn r (by simp)
    have hstep : crStep ⟨acc, p, p, b⟩ r = ⟨acc, p, p, verdictStep b r⟩ := by
      simp [crStep, hr]
    rw [List.foldl_cons, List.foldl_cons, hstep]
    exact ih acc p (verdictStep b r) (fun x hx => hn x (by simp [hx]))

/-- Folding the loop body over one nonempty table group entered from a
different previous table finalizes the previous table and reduces the
group from a fresh "ok" verdict. -/
theorem foldl_crStep_group (rows : List ResultRow) (acc : List String)
    (p t n : String) (b : Bool) (hne : rows ≠ [])
    (hn : ∀ r ∈ rows, r.table = n) (hnp : n ≠ p) :
    rows.foldl crStep ⟨acc, p, t, b⟩ =
      ⟨acc ++ (if b then [] else [p]), n, n, rows.foldl verdictStep true⟩ := by
  cases rows with
  | nil => exact absurd rfl hne
  | cons r rs =>
    have hr : r.table = n := hn r (by simp)
    have hstep : crStep ⟨acc, p, t, b⟩ r =
        ⟨acc ++ (if b then [] else [p]), n, n, verdictStep true r⟩ := by
      cases b <;> simp [crStep, hr, hnp]
    rw [List.foldl_cons, hstep,
        foldl_crStep_stay rs _ n (verdictStep true r)
          (fun x hx => hn x (by simp [hx])),
        List.foldl_cons]

/-- Reduction of a chain of contiguous table groups whose names differ from
the incoming previous table and pairwise between neighbours: the result is
the pending previous table (when not-OK) followed by the bad group names. -/
theorem finalizeCR_foldl_groups (gs : List (String × List ResultRow)) :
    ∀ (acc : List String) (p : String) (b : Bool),
      (∀ g ∈ gs, ∀ r ∈ g.2, r.table = g.1) →
      (∀ g ∈ gs, g.2 ≠ []) →
      List.Chain' (fun a c => a ≠ c) (p :: gs.map Prod.fst) →
      finalizeCR ((groupRows gs).foldl crStep ⟨acc, p, p, b⟩) =
        (acc ++ (if b then [] else [p])) ++ badNames gs := by
  induction gs with
  | nil =>
    intro acc p b _ _ _
    cases b <;> simp [groupRows, finalizeCR, badNames]
  | cons g rest ih =>
    intro acc p b htab hne hch
    obtain ⟨n, rows⟩ := g
    have h1 : ∀ r ∈ rows, r.table = n := fun r hr => htab ⟨n, rows⟩ (by simp) r hr
    have h2 : rows ≠ [] := hne ⟨n, rows⟩ (by simp)
    have hch1 := List.chain'_cons.mp hch
    have hnp : n ≠ p := Ne.symm hch1.1
    have hrows : groupRows (⟨n, rows⟩ :: rest) = rows ++ groupRows rest := by
      simp [groupRows]
    rw [hrows, List.foldl_append,
        foldl_crStep_group rows acc p p n b h2 h1 hnp,
        ih (acc ++ (if b then [] else [p])) n (rows.foldl verdictStep true)
          (fun g hg => htab g (by simp [hg]))
          (fun g hg => hne g (by simp [hg])) hch1.2]
    have hbn : badNames (⟨n, rows⟩ :: rest) =
        (if rows.foldl verdictStep true then [] else [n]) ++ badNames rest := by
      unfold badNames
      cases hfold : rows.foldl verdictStep true <;>
        simp [List.filter_cons, groupBad_eq_not_foldl, hfold]
    rw [hbn]
    cases b <;> cases hfold : rows.foldl verdictStep true <;>
      simp [hfold, List.append_assoc]

/-- Variant entered with a fresh "ok" verdict: the first group may also
coincide with the incoming previous-table name. -/
theorem finalizeCR_foldl_groups_true (gs : List (String × List ResultRow))
    (acc : List String) (p : String)
    (htab : ∀ g ∈ gs, ∀ r ∈ g.2, r.table = g.1)
    (hne : ∀ g ∈ gs, g.2 ≠ [])
    (hch : List.Chain' (fun a c => a ≠ c) (gs.map Prod.fst)) :
    finalizeCR ((groupRows gs).foldl crStep ⟨acc, p, p, true⟩) =
      acc ++ badNames gs := by
  cases gs with
  | nil => simp [groupRows, finalizeCR, badNames]
  | cons g rest =>
    obtain ⟨n, rows⟩ := g
    have h1 : ∀ r ∈ rows, r.table = n := fun r hr => htab ⟨n, rows⟩ (by simp) r hr
    have h2 : rows ≠ [] := hne ⟨n, rows⟩ (by simp)
    have htab' : ∀ g ∈ rest, ∀ r ∈ g.2, r.table = g.1 :=
      fun g hg => htab g (by simp [hg])
    have hne' : ∀ g ∈ rest, g.2 ≠ [] := fun g hg => hne g (by simp [hg])
    have hch' : List.Chain' (fun a c => a ≠ c) (n :: rest.map Prod.fst) := by
      simpa using hch
    have hrows : groupRows (⟨n, rows⟩ :: rest) = rows ++ groupRows rest := by
      simp [groupRows]
    have hbn : badNames (⟨n, rows⟩ :: rest) =
        (if rows.foldl verdictStep true then [] else [n]) ++ badNames rest := by
      unfold badNames
      cases hfold : rows.foldl verdictStep true <;>
        simp [List.filter_cons, groupBad_eq_not_foldl, hfold]
    by_cases hnp : n = p
    · subst hnp
      rw [hrows, List.foldl_append, foldl_crStep_stay rows acc n true h1,
          finalizeCR_foldl_groups rest acc n (rows.foldl verdictStep true)
            htab' hne' hch', hbn]
      cases hfold : rows.foldl verdictStep true <;> simp [hfold, List.append_assoc]
    · rw [hrows, List.foldl_append,
          foldl_crStep_group rows acc p p n true h2 h1 hnp]
      have hacc : (acc ++ if (true : Bool) = true then ([] : List String) else [p])
          = acc := by simp
      rw [hacc,
          finalizeCR_foldl_groups rest acc n (rows.foldl verdictStep true)
            htab' hne' hch', hbn]
      cases hfold : rows.foldl verdictStep true <;> simp [hfold, List.append_assoc]

/-- C1: for every result-row sequence in which the rows for one table are
contiguous (a list of nonempty groups with pairwise-distinct table names),
`CheckRepairStatus` returns exactly those table names whose final
applicable row leaves them not-OK: an "error" row (case-insensitive) marks
the current table not-OK, a "status" row with text "OK" (case-insensitive)
marks it OK again even after an earlier error, a "status" row with any
other text marks it not-OK; verdicts are finalized on table-name change
and after the last row.  In particular, [(t1,status,OK)] yields [],
[(t1,error,corrupt),(t1,status,OK)] yields [], [(t1,status,OK),(t1,error,x)]
yields [t1], and [(t1,error,x),(t2,status,OK)] yields [t1]. -/
theorem C1_checkRepairStatus_last_applicable_row :
    (∀ gs : List (String × List ResultRow),
      (∀ g ∈ gs, ∀ r ∈ g.2, r.table = g.1) →
      (∀ g ∈ gs, g.2 ≠ []) →
      (gs.map Prod.fst).Nodup →
      checkRepairStatus (groupRows gs) = badNames gs)
    ∧ checkRepairStatus [⟨"t1", "status", "OK"⟩] = []
    ∧ checkRepairStatus [⟨"t1", "error", "corrupt"⟩, ⟨"t1", "status", "OK"⟩] = []
    ∧ checkRepairStatus [⟨"t1", "status", "OK"⟩, ⟨"t1", "error", "x"⟩] = ["t1"]
    ∧ checkRepairStatus [⟨"t1", "error", "x"⟩, ⟨"t2", "status", "OK"⟩] = ["t1"] := by
  refine ⟨?_, by decide, by decide, by decide, by decide⟩
  intro gs htab hne hnd
  rw [checkRepairStatus_eq_finalize,
      finalizeCR_foldl_groups_true gs [] "" htab hne hnd.chain']
  rfl

/-- Witness for C1: the general characterization applied to the concrete
two-group input [(t1,error,x)],[(t2,status,OK)]. -/
theorem C1_checkRepairStatus_last_applicable_row_witness :
    checkRepairStatus
        (groupRows [("t1", [⟨"t1", "error", "x"⟩]),
                    ("t2", [⟨"t2", "status", "OK"⟩])]) =
      badNames [("t1", [⟨"t1", "error", "x"⟩]),
                ("t2", [⟨"t2", "status", "OK"⟩])] :=
  C1_checkRepairStatus_last_applicable_row.1
    [("t1", [⟨"t1", "error", "x"⟩]), ("t2", [⟨"t2", "status", "OK"⟩])]
    (by decide) (by decide) (by decide)

/-- C10: a row whose message type is neither "error" nor "status"
(case-insensitive) leaves the current table's running verdict unchanged:
within the current table it leaves the whole loop state unchanged, and the
verdict update ignores it; concretely, a lone "warning" row never adds a
table, does not clear a not-OK verdict set by an earlier error, and does
not spoil an earlier OK status. -/
theorem C10_non_applicable_rows_inert :
    (∀ (s : CRState) (r : ResultRow),
      rowApplicable r = false → r.table = s.previousTable →
      (crStep s r).ok = s.ok ∧ (crStep s r).tables = s.tables ∧
        (crStep s r).previousTable = s.previousTable)
    ∧ (∀ (b : Bool) (r : ResultRow),
        rowApplicable r = false → verdictStep b r = b)
    ∧ checkRepairStatus [⟨"t1", "warning", "w"⟩] = []
    ∧ checkRepairStatus [⟨"t1", "error", "x"⟩, ⟨"t1", "warning", "w"⟩] = ["t1"]
    ∧ checkRepairStatus [⟨"t1", "status", "OK"⟩, ⟨"t1", "note", "n"⟩] = [] := by
  refine ⟨?_, fun b r h => verdictStep_not_applicable b r h,
          by decide, by decide, by decide⟩
  intro s r hna htab
  simp [crStep, htab, verdictStep_not_applicable _ r hna]

/-- Witness for C10: a concrete "warning" row on the current table leaves
the concrete loop state unchanged. -/
theorem C10_non_applicable_rows_inert_witness :
    (crStep ⟨["t0"], "t1", "t1", false⟩ ⟨"t1", "warning", "w"⟩).ok = false ∧
    (crStep ⟨["t0"], "t1", "t1", false⟩ ⟨"t1", "warning", "w"⟩).tables = ["t0"] ∧
    (crStep ⟨["t0"], "t1", "t1", false⟩ ⟨"t1", "warning", "w"⟩).previousTable
      = "t1" :=
  C10_non_applicable_rows_inert.1 ⟨["t0"], "t1", "t1", false⟩
    ⟨"t1", "warning", "w"⟩ (by decide) (by decide)

/-! ## TableAuditor: IsNewDatabase (DBUtil::IsNewDatabase) -/

/-- QString::endsWith modeled as a suffix test on the character data. -/
def qEndsWith (s suffix : String) : Bool :=
  suffix.data.isSuffixOf s.data

/-- `DBUtil::IsNewDatabase` applied to a table list: true for exactly one
table ending in ".`schemalock`", or for no tables at all. -/
def isNewDatabase (tables : List String) : Bool :=
  (tables.length == 1 &&
    (match tables with
     | t :: _ => qEndsWith t ".`schemalock`"
     | [] => false)) ||
  (tables.length == 0)

/-- C6: `IsNewDatabase` returns true exactly when the table list is empty
or contains exactly one table whose name matches the reserved schema-lock
marker (suffix ".`schemalock`"), and false for any other non-empty table
list: two or more tables, or a single table that is not the marker. -/
theorem C6_isNewDatabase_iff :
    (∀ tables : List String,
      isNewDatabase tables = true ↔
        tables = [] ∨ ∃ t, tables = [t] ∧ qEndsWith t ".`schemalock`" = true)
    ∧ isNewDatabase [] = true
    ∧ isNewDatabase ["`mythconverg`.`schemalock`"] = true
    ∧ isNewDatabase ["`mythconverg`.`settings`"] = false
    ∧ isNewDatabase ["`mythconverg`.`schemalock`", "`mythconverg`.`settings`"]
        = false := by
  refine ⟨?_, by decide, by decide, by decide, by decide⟩
  intro tables
  match tables with
  | [] => simp [isNewDatabase]
  | [t] => simp [isNewDatabase]
  | t :: t' :: rest => simp [isNewDatabase]

/-! ## BackupScheduleLedger: IsBackupInProgress (DBUtil::IsBackupInProgress) -/

/-- `DBUtil::IsBackupInProgress`, with the two persisted settings modeled
as optional timestamps (`none` for an empty setting string) and the clock
as an explicit `now`; all times are in seconds, and
`backupStartTime.secsTo(now)` is `now - start`. -/
def isBackupInProgress (now : Int) (startTime endTime : Option Int) : Bool :=
  match startTime with
  | none => false
  | some s =>
    match endTime with
    | none =>
      if now - s < 600 then true else false
    | some e =>
      if e ≥ s then false
      else if now - s > 600 then false
      else true

/-- Counterexample to C2 as stated: with a stale end time before the start
and exactly 600 seconds elapsed, the code reports a backup in progress,
although 600 seconds is not strictly under the 10-minute threshold. -/
theorem C2_isBackupInProgress_counterexample :
    ¬(isBackupInProgress 700 (some 100) (some 50) = true ↔
        (700 : Int) - 100 < 600) := by
  decide

/-- C2 (amended): no start time recorded gives false; a start time with no
end time gives true iff strictly less than 600 seconds have elapsed since
start; with both times, end ≥ start gives false, and end < start gives
true iff at most 600 seconds (not strictly less) have elapsed since
start. -/
theorem C2_isBackupInProgress_characterization :
    (∀ (now : Int) (e : Option Int), isBackupInProgress now none e = false)
    ∧ (∀ (now s : Int),
        isBackupInProgress now (some s) none = true ↔ now - s < 600)
    ∧ (∀ (now s e : Int), e ≥ s →
        isBackupInProgress now (some s) (some e) = false)
    ∧ (∀ (now s e : Int), e < s →
        (isBackupInProgress now (some s) (some e) = true ↔ now - s ≤ 600)) := by
  refine ⟨fun now e => rfl, fun now s => ?_, fun now s e h => ?_,
          fun now s e h => ?_⟩
  · unfold isBackupInProgress
    split <;> simp_all
  · simp only [isBackupInProgress]
    rw [if_pos h]
  · simp only [isBackupInProgress]
    rw [if_neg (not_le.mpr h)]
    by_cases h2 : now - s > 600
    · rw [if_pos h2]
      constructor
      · intro hx
        exact absurd hx Bool.false_ne_true
      · intro hx
        exact absurd h2 (by omega)
    · rw [if_neg h2]
      constructor
      · intro _
        omega
      · intro _
        rfl

/-- Witness for C2 (amended): a stale end time 50 before start 100 with 300
seconds elapsed reports in-progress. -/
theorem C2_isBackupInProgress_characterization_witness :
    isBackupInProgress 400 (some 100) (some 50) = true ↔ (400 : Int) - 100 ≤ 600 :=
  C2_isBackupInProgress_characterization.2.2.2 400 100 50 (by decide)

/-! ## VersionProbe: ParseDBMSVersion / CompareDBMSVersion -/

/-- DBUtil::kUnknownVersionNumber = INT_MIN. -/
def kUnknownVersionNumber : Int := -2147483648

/-- INT_MAX, the largest value QString::toInt can return. -/
def kIntMax : Int := 2147483647

/-- One `digits.indexIn` step of the parse loop: the first maximal run of
consecutive digits at or after the current position, together with the
remaining characters after the run (the new position). -/
def findRun : List Char → Option (List Char × List Char)
  | [] => none
  | c :: cs =>
    if c.isDigit then
      some (c :: cs.takeWhile Char.isDigit, cs.dropWhile Char.isDigit)
    else
      findRun cs

/-- Numeric value of a digit run. -/
def digitsToNat (g : List Char) : Nat :=
  g.foldl (fun a c => a * 10 + (c.toNat - 48)) 0

/-- QString::toInt base 10 on a digit run, as assigned by the parse loop:
the value, or -1 when the conversion fails (value beyond INT_MAX). -/
def convRun (g : List Char) : Int :=
  if (digitsToNat g : Int) ≤ kIntMax then (digitsToNat g : Int) else -1

/-- The parse loop of `DBUtil::ParseDBMSVersion`: up to `n` digit runs are
converted in order. -/
def parseCollect : Nat → List Char → List Int
  | 0, _ => []
  | n + 1, cs =>
    match findRun cs with
    | none => []
    | some pr => convRun pr.1 :: parseCollect n pr.2

/-- The three version components produced by a parse pass of
`DBUtil::ParseDBMSVersion` on a version string: the `version[3]` array is
initialized to -1 and filled with up to three converted digit runs. -/
def parseVersion (s : String) : Int × Int × Int :=
  match parseCollect 3 s.data with
  | [] => (-1, -1, -1)
  | [a] => (a, -1, -1)
  | [a, b] => (a, b, -1)
  | a :: b :: c :: _ => (a, b, c)

/-- Specification-level description of the scan: the maximal runs of
consecutive digits of the string, left to right. -/
def splitRuns : List Char → List (List Char)
  | [] => []
  | c :: cs =>
    if c.isDigit then
      (c :: cs.takeWhile Char.isDigit) :: splitRuns (cs.dropWhile Char.isDigit)
    else
      splitRuns cs
termination_by cs => cs.length
decreasing_by
  · exact Nat.lt_succ_of_le (List.dropWhile_sublist Char.isDigit).length_le
  · exact Nat.lt_succ_of_le (Nat.le_refl _)

theorem splitRuns_eq_findRun (cs : List Char) :
    splitRuns cs =
      match findRun cs with
      | none => []
      | some pr => pr.1 :: splitRuns pr.2 := by
  induction cs with
  | nil => simp only [splitRuns, findRun]
  | cons c cs ih =>
    by_cases h : c.isDigit
    · simp only [splitRuns, findRun, if_pos h]
    · simp only [splitRuns, findRun, if_neg h]
      exact ih

theorem parseCollect_eq_take (n : Nat) :
    ∀ cs : List Char,
      parseCollect n cs = ((splitRuns cs).take n).map convRun := by
  induction n with
  | zero => intro cs; rfl
  | succ n ih =>
    intro cs
    rw [splitRuns_eq_findRun cs]
    unfold parseCollect
    cases h : findRun cs with
    | none => rfl
    | some pr =>
      show convRun pr.1 :: parseCollect n pr.2 = _
      rw [List.take_succ_cons, List.map_cons, ih pr.2]

/-- The components of a parse pass are exactly the per-run conversions of
the maximal digit runs of the string, with missing runs left at -1. -/
theorem parseVersion_eq_runs (s : String) :
    parseVersion s =
      (((splitRuns s.data).map convRun).getD 0 (-1),
       ((splitRuns s.data).map convRun).getD 1 (-1),
       ((splitRuns s.data).map convRun).getD 2 (-1)) := by
  unfold parseVersion
  rw [parseCollect_eq_take 3 s.data]
  rcases splitRuns s.data with _ | ⟨a, _ | ⟨b, _ | ⟨c, rest⟩⟩⟩ <;> simp [List.getD]

theorem convRun_neg_iff (g : List Char) : convRun g < 0 ↔ convRun g = -1 := by
  unfold convRun
  split <;> omega

/-- C4: parsing scans left to right for up to three separate groups of
consecutive digits, each group becoming one component in order (major,
minor, point); when fewer than three groups exist the remaining components
stay unknown (-1), and a group that fails numeric conversion becomes
unknown individually rather than propagating a partial number.  Thus
"5.0.22" parses to (5,0,22), "10.3-something-4" parses to (10,3,4),
"10.3" parses to (10,3,-1), and an over-INT_MAX first group gives
(-1,1,2) on "4294967296.1.2". -/
theorem C4_parseVersion_digit_groups :
    (∀ s : String,
      parseVersion s =
        (((splitRuns s.data).map convRun).getD 0 (-1),
         ((splitRuns s.data).map convRun).getD 1 (-1),
         ((splitRuns s.data).map convRun).getD 2 (-1)))
    ∧ parseVersion "5.0.22" = (5, 0, 22)
    ∧ parseVersion "10.3-something-4" = (10, 3, 4)
    ∧ parseVersion "10.3" = (10, 3, -1)
    ∧ parseVersion "4294967296.1.2" = (-1, 1, 2) :=
  ⟨parseVersion_eq_runs, by decide, by decide, by decide, by decide⟩

/-- One iteration of the comparison loop of `DBUtil::CompareDBMSVersion`:
once `result` is nonzero the loop has exited; otherwise the component is
compared unless the probed value is unknown and the requested value 0. -/
def compareLoopStep (result : Int) (q : Int × Int) : Int :=
  if result = 0 then
    if q.1 > -1 ∨ q.2 ≠ 0 then q.1 - q.2 else result
  else result

/-- The comparison loop of `DBUtil::CompareDBMSVersion` over the paired
`version[]` and `compareto[]` arrays. -/
def compareLoop (pairs : List (Int × Int)) : Int :=
  pairs.foldl compareLoopStep 0

/-- `DBUtil::CompareDBMSVersion` on a freshly parsed version string:
`kUnknownVersionNumber` when the parse pass fails (major component left
at -1), otherwise the loop result over (major, minor, point). -/
def compareDBMSVersion (s : String) (M m p : Int) : Int :=
  let v := parseVersion s
  if v.1 < 0 then kUnknownVersionNumber
  else compareLoop [(v.1, M), (v.2.1, m), (v.2.2, p)]

/-- Specification-level comparison: walk the components in order, skip a
component only if the probed value is unknown and the requested value is
exactly zero, return the first non-equal component's signed difference,
and 0 when all compared components are equal or skipped. -/
def specCompare : List (Int × Int) → Int
  | [] => 0
  | q :: rest =>
    if q.1 < 0 ∧ q.2 = 0 then specCompare rest
    else if q.1 = q.2 then specCompare rest
    else q.1 - q.2

theorem compareLoop_sticky (pairs : List (Int × Int)) (r : Int) (h : r ≠ 0) :
    pairs.foldl compareLoopStep r = r := by
  induction pairs with
  | nil => rfl
  | cons q rest ih =>
    rw [List.foldl_cons]
    unfold compareLoopStep
    rw [if_neg h]
    exact ih

theorem compareLoop_eq_spec (pairs : List (Int × Int)) :
    compareLoop pairs = specCompare pairs := by
  unfold compareLoop
  induction pairs with
  | nil => rfl
  | cons q rest ih =>
    rw [List.foldl_cons]
    unfold specCompare
    by_cases h1 : q.1 < 0 ∧ q.2 = 0
    · rw [if_pos h1]
      have hz : compareLoopStep 0 q = 0 := by
        unfold compareLoopStep
        rw [if_pos rfl, if_neg (by omega)]
      rw [hz, ih]
    · rw [if_neg h1]
      have hcond : q.1 > -1 ∨ q.2 ≠ 0 := by omega
      by_cases h2 : q.1 = q.2
      · rw [if_pos h2]
        have hz : compareLoopStep 0 q = 0 := by
          unfold compareLoopStep
          rw [if_pos rfl, if_pos hcond]
          omega
        rw [hz, ih]
      · rw [if_neg h2]
        have hstep : compareLoopStep 0 q = q.1 - q.2 := by
          unfold compareLoopStep
          rw [if_pos rfl, if_pos hcond]
        rw [hstep]
        exact compareLoop_sticky rest _ (by omega)

/-- C3: `CompareDBMSVersion` walks components major then minor then point,
skipping a component exactly when the probed component is unknown and the
requested value for it is 0; otherwise the result is the signed difference
of the first non-equal component, 0 when all compared components are equal
or legitimately skipped, and the `kUnknownVersionNumber` sentinel when
parsing fails, which happens exactly when there is no digit group at all
or the very first group fails conversion. -/
theorem C3_compareDBMSVersion_walk :
    (∀ (s : String) (M m p : Int),
      compareDBMSVersion s M m p =
        if (parseVersion s).1 < 0 then kUnknownVersionNumber
        else specCompare [((parseVersion s).1, M),
                          ((parseVersion s).2.1, m),
                          ((parseVersion s).2.2, p)])
    ∧ (∀ s : String,
        ((parseVersion s).1 < 0 ↔
          splitRuns s.data = [] ∨
          ∃ g rest, splitRuns s.data = g :: rest ∧ convRun g = -1))
    ∧ compareDBMSVersion "5.0.22" 5 0 22 = 0
    ∧ compareDBMSVersion "5.0.22" 5 1 22 = -1
    ∧ compareDBMSVersion "10.3" 10 3 0 = 0
    ∧ compareDBMSVersion "10.3" 10 3 1 = -2
    ∧ compareDBMSVersion "no digits here" 5 0 22 = kUnknownVersionNumber := by
  refine ⟨?_, ?_, by decide, by decide, by decide, by decide, by decide⟩
  · intro s M m p
    rcases hp : parseVersion s with ⟨vM, vmp⟩
    rcases vmp with ⟨vm, vp⟩
    simp only [compareDBMSVersion, hp]
    by_cases h : vM < 0 <;> simp [h, compareLoop_eq_spec]
  · intro s
    rw [parseVersion_eq_runs s]
    rcases h : splitRuns s.data with _ | ⟨g, rest⟩ <;> simp [List.getD]
    exact convRun_neg_iff g

/-! ## VersionProbe state: QueryDBMSVersion / ParseDBMSVersion as
transitions on the DBUtil member variables -/

/-- The version-related member variables of `DBUtil`:
m_versionString, m_versionMajor, m_versionMinor, m_versionPoint. -/
structure DBUtilState where
  versionString : String
  versionMajor : Int
  versionMinor : Int
  versionPoint : Int
deriving DecidableEq

/-- The `DBUtil` constructor state: null string, components -1. -/
def initDBUtilState : DBUtilState := ⟨"", -1, -1, -1⟩

/-- `DBUtil::QueryDBMSVersion`: the environment's answer (operator
override, or the `SELECT VERSION()` value, with "" modeling the null
result of a failed query) is stored in m_versionString; returns whether
it is nonempty. -/
def queryDBMSVersion (oracle : String) (st : DBUtilState) : DBUtilState × Bool :=
  (⟨oracle, st.versionMajor, st.versionMinor, st.versionPoint⟩, oracle ≠ "")

/-- The parsing body of `DBUtil::ParseDBMSVersion` once the version string
is available: all three components are overwritten from the same pass and
the pass succeeds iff the major component was set. -/
def storeParsed (st : DBUtilState) : DBUtilState × Bool :=
  ((fun v => ⟨st.versionString, v.1, v.2.1, v.2.2⟩) (parseVersion st.versionString),
   (parseVersion st.versionString).1 > -1)

/-- `DBUtil::ParseDBMSVersion` including the lazy query of the version
string; when the query fails the early return leaves the components
untouched. -/
def parseDBMSVersionRun (oracle : String) (st : DBUtilState) :
    DBUtilState × Bool :=
  if st.versionString = "" then
    if !(queryDBMSVersion oracle st).2 then ((queryDBMSVersion oracle st).1, false)
    else storeParsed (queryDBMSVersion oracle st).1
  else storeParsed st

/-- `DBUtil::GetDBMSVersion` as a state transition. -/
def getDBMSVersionRun (oracle : String) (st : DBUtilState) :
    DBUtilState × String :=
  if st.versionString = "" then
    ((queryDBMSVersion oracle st).1, (queryDBMSVersion oracle st).1.versionString)
  else (st, st.versionString)

/-- `DBUtil::CompareDBMSVersion` as a state transition: parse lazily when
the major component is unset; `kUnknownVersionNumber` when parsing fails. -/
def compareDBMSVersionRun (oracle : String) (st : DBUtilState)
    (M m p : Int) : DBUtilState × Int :=
  if st.versionMajor < 0 then
    if !(parseDBMSVersionRun oracle st).2 then
      ((parseDBMSVersionRun oracle st).1, kUnknownVersionNumber)
    else
      ((parseDBMSVersionRun oracle st).1,
       compareLoop [((parseDBMSVersionRun oracle st).1.versionMajor, M),
                    ((parseDBMSVersionRun oracle st).1.versionMinor, m),
                    ((parseDBMSVersionRun oracle st).1.versionPoint, p)])
  else
    (st, compareLoop [(st.versionMajor, M), (st.versionMinor, m),
                      (st.versionPoint, p)])

/-- The states a `DBUtil` instance can be in: the constructor state and
everything reachable through the version-probe operations, with arbitrary
environment answers. -/
inductive DBUtilReachable : DBUtilState → Prop where
  | init : DBUtilReachable initDBUtilState
  | getVersion (oracle : String) (st : DBUtilState) :
      DBUtilReachable st → DBUtilReachable (getDBMSVersionRun oracle st).1
  | parse (oracle : String) (st : DBUtilState) :
      DBUtilReachable st → DBUtilReachable (parseDBMSVersionRun oracle st).1
  | compare (oracle : String) (st : DBUtilState) (M m p : Int) :
      DBUtilReachable st → DBUtilReachable (compareDBMSVersionRun oracle st M m p).1

/-- The VersionInfo invariant: the three components are collectively
unknown, or all equal to the same parse pass over the stored (nonempty)
version string. -/
def versionInvariant (st : DBUtilState) : Prop :=
  (st.versionMajor = -1 ∧ st.versionMinor = -1 ∧ st.versionPoint = -1) ∨
  (st.versionString ≠ "" ∧
    (st.versionMajor, st.versionMinor, st.versionPoint)
      = parseVersion st.versionString)

theorem versionInvariant_parse (oracle : String) (st : DBUtilState)
    (h : versionInvariant st) :
    versionInvariant (parseDBMSVersionRun oracle st).1 := by
  unfold parseDBMSVersionRun
  by_cases hs : st.versionString = ""
  · rw [if_pos hs]
    by_cases ho : oracle = ""
    · rw [if_pos (by simp [queryDBMSVersion, ho])]
      rcases h with h1 | h1
      · exact Or.inl h1
      · exact absurd hs h1.1
    · rw [if_neg (by simp [queryDBMSVersion, ho])]
      exact Or.inr ⟨by simpa [storeParsed, queryDBMSVersion] using ho, by
        simp [storeParsed, queryDBMSVersion]⟩
  · rw [if_neg hs]
    exact Or.inr ⟨by simpa [storeParsed] using hs, by simp [storeParsed]⟩

theorem versionInvariant_reachable (st : DBUtilState)
    (h : DBUtilReachable st) : versionInvariant st := by
  induction h with
  | init => exact Or.inl ⟨rfl, rfl, rfl⟩
  | getVersion oracle st hst ih =>
    unfold getDBMSVersionRun
    by_cases hs : st.versionString = ""
    · rw [if_pos hs]
      rcases ih with h1 | h1
      · exact Or.inl (by simpa [queryDBMSVersion] using h1)
      · exact absurd hs h1.1
    · rw [if_neg hs]
      exact ih
  | parse oracle st hst ih => exact versionInvariant_parse oracle st ih
  | compare oracle st M m p hst ih =>
    unfold compareDBMSVersionRun
    by_cases hm : st.versionMajor < 0
    · rw [if_pos hm]
      by_cases hp : (parseDBMSVersionRun oracle st).2
      · rw [if_neg (by simp [hp])]
        exact versionInvariant_parse oracle st ih
      · rw [if_pos (by simp [hp])]
        exact versionInvariant_parse oracle st ih
    · rw [if_neg hm]
      exact ih

/-- C9: after every parse attempt on any reachable `DBUtil` state, the
three stored version components are either all derived from that same
parse pass over the stored version string, or collectively unknown; a
failing pass never leaves the major component set while minor and point
retain stale values. -/
theorem C9_parse_pass_atomic (st : DBUtilState) (h : DBUtilReachable st)
    (oracle : String) :
    ((parseDBMSVersionRun oracle st).1.versionMajor,
     (parseDBMSVersionRun oracle st).1.versionMinor,
     (parseDBMSVersionRun oracle st).1.versionPoint)
        = parseVersion (parseDBMSVersionRun oracle st).1.versionString
    ∨ ((parseDBMSVersionRun oracle st).1.versionMajor = -1
       ∧ (parseDBMSVersionRun oracle st).1.versionMinor = -1
       ∧ (parseDBMSVersionRun oracle st).1.versionPoint = -1) := by
  rcases versionInvariant_reachable _ (DBUtilReachable.parse oracle st h) with
    h1 | h1
  · exact Or.inr h1
  · exact Or.inl h1.2

/-- Witness for C9: a parse attempt with the probe answering "5.0.22"
from the constructor state. -/
theorem C9_parse_pass_atomic_witness :
    ((parseDBMSVersionRun "5.0.22" initDBUtilState).1.versionMajor,
     (parseDBMSVersionRun "5.0.22" initDBUtilState).1.versionMinor,
     (parseDBMSVersionRun "5.0.22" initDBUtilState).1.versionPoint)
        = parseVersion (parseDBMSVersionRun "5.0.22" initDBUtilState).1.versionString
    ∨ ((parseDBMSVersionRun "5.0.22" initDBUtilState).1.versionMajor = -1
       ∧ (parseDBMSVersionRun "5.0.22" initDBUtilState).1.versionMinor = -1
       ∧ (parseDBMSVersionRun "5.0.22" initDBUtilState).1.versionPoint = -1) :=
  C9_parse_pass_atomic initDBUtilState DBUtilReachable.init "5.0.22"

/-! ## BackupOrchestrator: DBUtil::BackupDB and DBUtil::DoBackup

The orchestration is a pure function of an environment record describing
what the platform, settings, filesystem and external processes would
answer; alongside status and artifact path it returns the ordered trace of
externally visible events (timestamps saved, credential files staged and
unlinked, external processes run).  `GENERIC_EXIT_OK` is 0.  The
housekeeping bookkeeping row written after the end timestamp touches
neither timestamps nor credential files and is not traced. -/

/-- MythDBBackupStatus. -/
inductive MythDBBackupStatus where
  | failed
  | completed
  | disabled
  | emptyDB
deriving DecidableEq

/-- Which DoBackup overload an event belongs to: the script-based attempt
or the internal mysqldump attempt. -/
inductive BackupAttempt where
  | script
  | internal
deriving DecidableEq

/-- Externally visible events of a backup run, in order. -/
inductive BackupEvent where
  | savedStart
  | savedEnd
  | staged (a : BackupAttempt)
  | ranProcess (a : BackupAttempt) (status : Nat)
  | unlinked (a : BackupAttempt)
  | ranCompress (status : Nat)
deriving DecidableEq

/-- Environment of one `BackupDB` call: platform flag, settings, table
list, filesystem answers and the exit statuses of the external
processes. -/
structure BackupEnv where
  usingMingw : Bool
  disableAutomaticBackup : Int
  tables : List String
  scriptConfigured : Bool
  scriptConfOk : Bool
  scriptStatus : Nat
  scriptArtifacts : List String
  backupDirectory : String
  backupFilename : String
  internalConfOk : Bool
  dumpStatus : Nat
  gzipExists : Bool
  compressStatus : Nat
deriving DecidableEq

/-- `DBUtil::DoBackup(backupScript, filename)`: stage the key=value
credential file (when staging succeeds), run the script, unlink the staged
file, and on exit 0 locate the artifact among the files matching the
suggested prefix. -/
def doBackupScript (env : BackupEnv) : Bool × String × List BackupEvent :=
  let ev := (if env.scriptConfOk then [BackupEvent.staged .script] else [])
            ++ [BackupEvent.ranProcess .script env.scriptStatus]
            ++ (if env.scriptConfOk then [BackupEvent.unlinked .script] else [])
  if env.scriptStatus ≠ 0 then
    (false, "__FAILED__", ev)
  else
    match env.scriptArtifacts with
    | [] => (true, "", ev)
    | a :: _ => (true, env.backupDirectory ++ "/" ++ a, ev)

/-- `DBUtil::DoBackup(filename)`: stage the mysqldump extra-config file
(aborting the attempt when staging fails, leaving the filename untouched),
run mysqldump, unlink the staged file, and on exit 0 optionally compress
the dump. -/
def doBackupInternal (env : BackupEnv) (filenameIn : String) :
    Bool × String × List BackupEvent :=
  if ¬env.internalConfOk then
    (false, filenameIn, [])
  else
    let ev := [BackupEvent.staged .internal,
               BackupEvent.ranProcess .internal env.dumpStatus,
               BackupEvent.unlinked .internal]
    if env.dumpStatus ≠ 0 then
      (false, "__FAILED__", ev)
    else
      let pathname := env.backupDirectory ++ "/" ++ env.backupFilename
      if env.gzipExists then
        if env.compressStatus ≠ 0 then
          (true, pathname, ev ++ [BackupEvent.ranCompress env.compressStatus])
        else
          (true, pathname ++ ".gz", ev ++ [BackupEvent.ranCompress env.compressStatus])
      else
        (true, pathname, ev)

/-- The attempt chain of `DBUtil::BackupDB`: script attempt when the
script file exists, internal attempt when there was no script or it
failed. -/
def backupAttempts (env : BackupEnv) : Bool × String × List BackupEvent :=
  let s := if env.scriptConfigured then doBackupScript env else (false, "", [])
  if s.1 then s
  else
    ((doBackupInternal env s.2.1).1, (doBackupInternal env s.2.1).2.1,
     s.2.2 ++ (doBackupInternal env s.2.1).2.2)

/-- `DBUtil::BackupDB`: preconditions in order (platform, operator
disable policy, fresh database), then start timestamp, attempt chain, end
timestamp. -/
def backupDB (env : BackupEnv) : MythDBBackupStatus × String × List BackupEvent :=
  if env.usingMingw then (.disabled, "", [])
  else if env.disableAutomaticBackup ≠ 0 then (.disabled, "", [])
  else if isNewDatabase env.tables then (.emptyDB, "", [])
  else
    ((if (backupAttempts env).1 then .completed else .failed),
     (backupAttempts env).2.1,
     BackupEvent.savedStart :: ((backupAttempts env).2.2 ++ [BackupEvent.savedEnd]))

theorem doBackupScript_events (env : BackupEnv) (h : env.scriptConfOk = true) :
    (doBackupScript env).2.2 =
      [BackupEvent.staged .script,
       BackupEvent.ranProcess .script env.scriptStatus,
       BackupEvent.unlinked .script] := by
  unfold doBackupScript
  rcases hA : env.scriptArtifacts with _ | ⟨a, rest⟩ <;>
    by_cases hs : env.scriptStatus ≠ 0 <;>
      simp [h, hs, hA]

theorem doBackupScript_events_noconf (env : BackupEnv)
    (h : env.scriptConfOk = false) :
    (doBackupScript env).2.2 = [BackupEvent.ranProcess .script env.scriptStatus] := by
  unfold doBackupScript
  rcases hA : env.scriptArtifacts with _ | ⟨a, rest⟩ <;>
    by_cases hs : env.scriptStatus ≠ 0 <;>
      simp [h, hs, hA]

theorem doBackupInternal_events (env : BackupEnv) (f : String)
    (h : env.internalConfOk = true) :
    (doBackupInternal env f).2.2 =
      [BackupEvent.staged .internal,
       BackupEvent.ranProcess .internal env.dumpStatus,
       BackupEvent.unlinked .internal] ++
      (if env.dumpStatus = 0 ∧ env.gzipExists = true
       then [BackupEvent.ranCompress env.compressStatus] else []) := by
  unfold doBackupInternal
  by_cases hd : env.dumpStatus = 0 <;>
    by_cases hg : env.gzipExists = true <;>
      by_cases hc : env.compressStatus = 0 <;>
        simp [h, hd, hg, hc]

theorem doBackupInternal_events_noconf (env : BackupEnv) (f : String)
    (h : env.internalConfOk = false) :
    (doBackupInternal env f).2.2 = [] := by
  simp [doBackupInternal, h]

/-- C7: when `BackupDB` short-circuits on a precondition — platform
support disabled or the operator disable policy (in that order, before the
empty-store check) giving Disabled, or a fresh/empty store giving
EmptyStore — it returns without recording a start timestamp and without
staging any credential file: the event trace is empty. -/
theorem C7_preconditions_short_circuit :
    (∀ env : BackupEnv,
      env.usingMingw = true ∨ env.disableAutomaticBackup ≠ 0 →
      backupDB env = (MythDBBackupStatus.disabled, "", []))
    ∧ (∀ env : BackupEnv,
        env.usingMingw = false → env.disableAutomaticBackup = 0 →
        isNewDatabase env.tables = true →
        backupDB env = (MythDBBackupStatus.emptyDB, "", [])) := by
  constructor
  · rintro env (h | h) <;> by_cases hm : env.usingMingw = true <;>
      simp [backupDB, h, hm]
  · intro env h1 h2 h3
    simp [backupDB, h1, h2, h3]

/-- Witness for C7: the disable policy alone short-circuits with an empty
trace even on a populated store with a configured script. -/
theorem C7_preconditions_short_circuit_witness :
    backupDB ⟨false, 1, ["`db`.`rec`", "`db`.`chan`"], true, true, 0,
              ["f.sql"], "/backups", "f.sql", true, 0, true, 0⟩ =
      (MythDBBackupStatus.disabled, "", []) :=
  C7_preconditions_short_circuit.1
    ⟨false, 1, ["`db`.`rec`", "`db`.`chan`"], true, true, 0,
     ["f.sql"], "/backups", "f.sql", true, 0, true, 0⟩
    (Or.inr (by decide))

/-- A sublist of a middle segment is a sublist of the whole
concatenation. -/
theorem sublist_embed {α : Type _} {core A : List α} (pre post : List α)
    (h : core.Sublist A) : core.Sublist (pre ++ (A ++ post)) :=
  (h.trans (List.sublist_append_left A post)).trans
    (List.sublist_append_right pre (A ++ post))

theorem staged_script_not_mem_internal (env : BackupEnv) (f : String) :
    BackupEvent.staged .script ∉ (doBackupInternal env f).2.2 := by
  by_cases h : env.internalConfOk = true
  · rw [doBackupInternal_events env f h]
    by_cases hi : env.dumpStatus = 0 ∧ env.gzipExists = true <;> simp [hi]
  · rw [doBackupInternal_events_noconf env f (by simpa using h)]
    simp

theorem staged_internal_not_mem_script (env : BackupEnv) :
    BackupEvent.staged .internal ∉ (doBackupScript env).2.2 := by
  by_cases h : env.scriptConfOk = true
  · rw [doBackupScript_events env h]
    simp
  · rw [doBackupScript_events_noconf env (by simpa using h)]
    simp

theorem staged_script_conf (env : BackupEnv)
    (h : BackupEvent.staged .script ∈ (doBackupScript env).2.2) :
    env.scriptConfOk = true := by
  by_cases hc : env.scriptConfOk = true
  · exact hc
  · rw [doBackupScript_events_noconf env (by simpa using hc)] at h
    simp at h

theorem staged_internal_conf (env : BackupEnv) (f : String)
    (h : BackupEvent.staged .internal ∈ (doBackupInternal env f).2.2) :
    env.internalConfOk = true := by
  by_cases hc : env.internalConfOk = true
  · exact hc
  · rw [doBackupInternal_events_noconf env f (by simpa using hc)] at h
    simp at h

theorem script_core_sublist (env : BackupEnv) (h : env.scriptConfOk = true) :
    List.Sublist
      [BackupEvent.staged .script,
       BackupEvent.ranProcess .script env.scriptStatus,
       BackupEvent.unlinked .script]
      (doBackupScript env).2.2 := by
  rw [doBackupScript_events env h]

theorem internal_core_sublist (env : BackupEnv) (f : String)
    (h : env.internalConfOk = true) :
    List.Sublist
      [BackupEvent.staged .internal,
       BackupEvent.ranProcess .internal env.dumpStatus,
       BackupEvent.unlinked .internal]
      (doBackupInternal env f).2.2 := by
  rw [doBackupInternal_events env f h]
  exact List.sublist_append_left _ _

theorem backupAttempts_events_script_success (env : BackupEnv)
    (hsc : env.scriptConfigured = true) (h1 : (doBackupScript env).1 = true) :
    (backupAttempts env).2.2 = (doBackupScript env).2.2 := by
  simp [backupAttempts, hsc, h1]

theorem backupAttempts_events_script_fail (env : BackupEnv)
    (hsc : env.scriptConfigured = true) (h1 : (doBackupScript env).1 = false) :
    (backupAttempts env).2.2 =
      (doBackupScript env).2.2 ++
        (doBackupInternal env (doBackupScript env).2.1).2.2 := by
  simp [backupAttempts, hsc, h1]

theorem backupAttempts_events_noscript (env : BackupEnv)
    (hsc : env.scriptConfigured = false) :
    (backupAttempts env).2.2 = (doBackupInternal env "").2.2 := by
  simp [backupAttempts, hsc]

theorem backupAttempts_staged_sublist (env : BackupEnv) (a : BackupAttempt)
    (hmem : BackupEvent.staged a ∈ (backupAttempts env).2.2) :
    ∃ st : Nat,
      List.Sublist [BackupEvent.staged a, BackupEvent.ranProcess a st,
                    BackupEvent.unlinked a] (backupAttempts env).2.2 := by
  by_cases hsc : env.scriptConfigured = true
  · by_cases h1 : (doBackupScript env).1 = true
    · rw [backupAttempts_events_script_success env hsc h1] at hmem ⊢
      cases a with
      | script =>
        exact ⟨env.scriptStatus, script_core_sublist env (staged_script_conf env hmem)⟩
      | internal =>
        exact absurd hmem (staged_internal_not_mem_script env)
    · have h1' : (doBackupScript env).1 = false := by
        cases hx : (doBackupScript env).1
        · rfl
        · exact absurd hx h1
      rw [backupAttempts_events_script_fail env hsc h1'] at hmem ⊢
      cases a with
      | script =>
        have hm : BackupEvent.staged .script ∈ (doBackupScript env).2.2 := by
          rcases List.mem_append.mp hmem with h | h
          · exact h
          · exact absurd h (staged_script_not_mem_internal env _)
        exact ⟨env.scriptStatus,
          (script_core_sublist env (staged_script_conf env hm)).trans
            (List.sublist_append_left _ _)⟩
      | internal =>
        have hm : BackupEvent.staged .internal ∈
            (doBackupInternal env (doBackupScript env).2.1).2.2 := by
          rcases List.mem_append.mp hmem with h | h
          · exact absurd h (staged_internal_not_mem_script env)
          · exact h
        exact ⟨env.dumpStatus,
          (internal_core_sublist env _ (staged_internal_conf env _ hm)).trans
            (List.sublist_append_right _ _)⟩
  · have hsc' : env.scriptConfigured = false := by
      cases hx : env.scriptConfigured
      · rfl
      · exact absurd hx hsc
    rw [backupAttempts_events_noscript env hsc'] at hmem ⊢
    cases a with
    | script =>
      exact absurd hmem (staged_script_not_mem_internal env "")
    | internal =>
      exact ⟨env.dumpStatus,
        internal_core_sublist env "" (staged_internal_conf env "" hmem)⟩

/-- C8: on both the script path and the internal dump path, if a
credential file was successfully staged before the external invocation
then it is unlinked after the process returns, regardless of the exit
status: whenever the trace contains a staged event for an attempt, it
contains the subsequence staged, process run, unlinked for that attempt. -/
theorem C8_staged_credentials_unlinked :
    ∀ (env : BackupEnv) (a : BackupAttempt),
      BackupEvent.staged a ∈ (backupDB env).2.2 →
      ∃ st : Nat,
        List.Sublist [BackupEvent.staged a, BackupEvent.ranProcess a st,
                      BackupEvent.unlinked a] (backupDB env).2.2 := by
  intro env a hmem
  by_cases h1 : env.usingMingw = true
  · simp [backupDB, h1] at hmem
  · by_cases h2 : env.disableAutomaticBackup = 0
    · by_cases h3 : isNewDatabase env.tables = true
      · simp [backupDB, h1, h2, h3] at hmem
      · have htr : (backupDB env).2.2 =
            BackupEvent.savedStart ::
              ((backupAttempts env).2.2 ++ [BackupEvent.savedEnd]) := by
          simp [backupDB, h1, h2, h3]
        rw [htr] at hmem ⊢
        have hmem' : BackupEvent.staged a ∈ (backupAttempts env).2.2 := by
          simpa using hmem
        obtain ⟨st, hsub⟩ := backupAttempts_staged_sublist env a hmem'
        exact ⟨st, List.Sublist.cons _
          (hsub.trans (List.sublist_append_left _ _))⟩
    · simp [backupDB, h1, h2] at hmem

/-- Witness for C8: with a configured script whose staging succeeds but
whose process exits 7, and an internal attempt whose dump exits 9, both
staged credential files are unlinked. -/
theorem C8_staged_credentials_unlinked_witness :
    ∃ st : Nat,
      List.Sublist [BackupEvent.staged .internal,
                    BackupEvent.ranProcess .internal st,
                    BackupEvent.unlinked .internal]
        (backupDB ⟨false, 0, ["`db`.`t`"], true, true, 7, [],
                   "/backups", "f.sql", true, 9, false, 0⟩).2.2 :=
  C8_staged_credentials_unlinked
    ⟨false, 0, ["`db`.`t`"], true, true, 7, [],
     "/backups", "f.sql", true, 9, false, 0⟩
    .internal (by decide)

theorem doBackupScript_failed_path (env : BackupEnv)
    (h : (doBackupScript env).1 = false) :
    (doBackupScript env).2.1 = "__FAILED__" := by
  unfold doBackupScript at h ⊢
  by_cases hs : env.scriptStatus ≠ 0
  · simp [hs]
  · rcases hA : env.scriptArtifacts with _ | ⟨x, r⟩ <;> simp [hs, hA] at h

theorem doBackupInternal_failed_path (env : BackupEnv) (f : String)
    (h : (doBackupInternal env f).1 = false) :
    (doBackupInternal env f).2.1 = "__FAILED__" ∨
    ((doBackupInternal env f).2.1 = f ∧ env.internalConfOk = false) := by
  unfold doBackupInternal at h ⊢
  by_cases hc : env.internalConfOk = true
  · by_cases hd : env.dumpStatus = 0
    · by_cases hg : env.gzipExists = true <;>
        by_cases hcs : env.compressStatus = 0 <;>
          simp [hc, hd, hg, hcs] at h
    · left
      simp [hc, hd]
  · have hc' : env.internalConfOk = false := by
      cases hx : env.internalConfOk
      · rfl
      · exact absurd hx hc
    right
    simp [hc']

theorem backupAttempts_failed_path (env : BackupEnv)
    (h : (backupAttempts env).1 = false) :
    (backupAttempts env).2.1 = "__FAILED__" ∨
    ((backupAttempts env).2.1 = "" ∧ env.scriptConfigured = false ∧
      env.internalConfOk = false) := by
  by_cases hsc : env.scriptConfigured = true
  · by_cases h1 : (doBackupScript env).1 = true
    · rw [show backupAttempts env = doBackupScript env by
          simp [backupAttempts, hsc, h1]] at h
      rw [h1] at h
      exact absurd h (by simp)
    · have h1' : (doBackupScript env).1 = false := by
        cases hx : (doBackupScript env).1
        · rfl
        · exact absurd hx h1
      have hb : (backupAttempts env).2.1 =
          (doBackupInternal env (doBackupScript env).2.1).2.1 := by
        simp [backupAttempts, hsc, h1']
      have hbf : (doBackupInternal env (doBackupScript env).2.1).1 = false := by
        have : (backupAttempts env).1 =
            (doBackupInternal env (doBackupScript env).2.1).1 := by
          simp [backupAttempts, hsc, h1']
        rw [this] at h
        exact h
      rw [hb]
      rcases doBackupInternal_failed_path env _ hbf with h2 | h2
      · exact Or.inl h2
      · rw [h2.1, doBackupScript_failed_path env h1']
        exact Or.inl rfl
  · have hsc' : env.scriptConfigured = false := by
      cases hx : env.scriptConfigured
      · rfl
      · exact absurd hx hsc
    have hb : (backupAttempts env).2.1 = (doBackupInternal env "").2.1 := by
      simp [backupAttempts, hsc']
    have hbf : (doBackupInternal env "").1 = false := by
      have : (backupAttempts env).1 = (doBackupInternal env "").1 := by
        simp [backupAttempts, hsc']
      rw [this] at h
      exact h
    rw [hb]
    rcases doBackupInternal_failed_path env "" hbf with h2 | h2
    · exact Or.inl h2
    · exact Or.inr ⟨h2.1, hsc', h2.2⟩

/-- Counterexample to C5 as stated: with no script configured and the
internal attempt aborting because the credential file could not be
created, `BackupDB` returns Failed with an empty artifact path, not the
sentinel. -/
theorem C5_failed_path_counterexample :
    (backupDB ⟨false, 0, ["`db`.`t`"], false, false, 0, [],
               "/backups", "f.sql", false, 0, false, 0⟩).1
        = MythDBBackupStatus.failed
    ∧ (backupDB ⟨false, 0, ["`db`.`t`"], false, false, 0, [],
                 "/backups", "f.sql", false, 0, false, 0⟩).2.1 = ""
    ∧ ("" : String) ≠ "__FAILED__" := by
  refine ⟨by decide, by decide, by decide⟩

/-- C5 (amended): whenever `BackupDB` returns Failed, the artifact path is
the sentinel "__FAILED__" — except in the single case where no script
attempt ran and the internal attempt aborted before invoking the dump
because credential staging failed, where the path stays the empty string;
in particular a non-zero exit from the dump utility always sets the path
to the sentinel. -/
theorem C5_failed_path_sentinel :
    (∀ env : BackupEnv,
      (backupDB env).1 = MythDBBackupStatus.failed →
      ((backupDB env).2.1 = "__FAILED__" ∨
       ((backupDB env).2.1 = "" ∧ env.scriptConfigured = false ∧
        env.internalConfOk = false)))
    ∧ (∀ (env : BackupEnv) (f : String),
        env.internalConfOk = true → env.dumpStatus ≠ 0 →
        (doBackupInternal env f).1 = false ∧
          (doBackupInternal env f).2.1 = "__FAILED__") := by
  constructor
  · intro env hf
    by_cases h1 : env.usingMingw = true
    · simp [backupDB, h1] at hf
    · by_cases h2 : env.disableAutomaticBackup = 0
      · by_cases h3 : isNewDatabase env.tables = true
        · simp [backupDB, h1, h2, h3] at hf
        · have hpath : (backupDB env).2.1 = (backupAttempts env).2.1 := by
            simp [backupDB, h1, h2, h3]
          have hfail : (backupAttempts env).1 = false := by
            cases hx : (backupAttempts env).1
            · rfl
            · rw [show (backupDB env).1 = MythDBBackupStatus.completed by
                  simp [backupDB, h1, h2, h3, hx]] at hf
              exact absurd hf (by simp)
          rw [hpath]
          exact backupAttempts_failed_path env hfail
      · simp [backupDB, h1, h2] at hf
  · intro env f hc hd
    constructor <;> simp [doBackupInternal, hc, hd]

/-- Witness for C5 (amended): no script, staging OK, dump exits 1: the
Failed outcome carries the sentinel path. -/
theorem C5_failed_path_sentinel_witness :
    (backupDB ⟨false, 0, ["`db`.`t`"], false, false, 0, [],
               "/backups", "f.sql", true, 1, false, 0⟩).2.1 = "__FAILED__" ∨
    ((backupDB ⟨false, 0, ["`db`.`t`"], false, false, 0, [],
                "/backups", "f.sql", true, 1, false, 0⟩).2.1 = ""
     ∧ (false : Bool) = false ∧ (true : Bool) = false) :=
  C5_failed_path_sentinel.1
    ⟨false, 0, ["`db`.`t`"], false, false, 0, [],
     "/backups", "f.sql", true, 1, false, 0⟩
    (by decide)
